import Mathlib

/-!
Shallow embedding of the NextStore e-commerce order workflow
(backend/shop/models.py, serializers.py, views.py, admin.py) and proofs of
the specified properties of order creation, cancellation, registration and
favorites.  Monetary values are modelled in fixed-point minor units (the
DecimalField columns carry two fractional digits), so exact decimal
arithmetic is exact Int arithmetic.  Stock is modelled as Int so that
nonnegativity is a provable invariant rather than a baked-in assumption.
-/

namespace NextStore

/-- Order status values, from the OrderStatus choices in shop/models.py. -/
inductive OrderStatus where
  | pending
  | confirmed
  | processing
  | shipped
  | delivered
  | cancelled
deriving DecidableEq, Repr

/-- A catalog product row, from the Product model in shop/models.py.
The UUID primary key is modelled as an opaque Nat. -/
structure Product where
  pid : Nat
  name : String
  price : Int
  stock : Int
  isActive : Bool
deriving DecidableEq, Repr

/-- One requested cart line, from OrderItemCreateSerializer in
shop/serializers.py: a product id plus a positive quantity. -/
structure CartLine where
  productId : Nat
  quantity : Nat
deriving DecidableEq, Repr

/-- A persisted order line, from the OrderItem model in shop/models.py:
a nullable product reference plus the snapshotted name and price. -/
structure OrderItemRec where
  productRef : Option Nat
  productName : String
  price : Int
  quantity : Nat
deriving DecidableEq, Repr

/-- A persisted order row, from the Order model in shop/models.py.  The
line items are kept with the order (they cascade with it). -/
structure OrderRec where
  oid : Nat
  orderNumber : String
  userId : Option Nat
  status : OrderStatus
  totalAmount : Int
  items : List OrderItemRec
deriving DecidableEq, Repr

/-- A user profile row, from the Profile model in shop/models.py. -/
structure ProfileRec where
  userId : Nat
  phone : String
deriving DecidableEq, Repr

/-- The persistent store: product, order, favorite, user and profile
tables, plus the next system-assigned order id. -/
structure Store where
  products : List Product
  orders : List OrderRec
  favorites : List (Nat × Nat)
  users : List Nat
  profiles : List ProfileRec
  nextOrderId : Nat
deriving DecidableEq, Repr

/-- Lookup by primary key, as in Product.objects.get(id=value). -/
def findProduct (ps : List Product) (pid : Nat) : Option Product :=
  ps.find? (fun p => p.pid == pid)

/-- Lookup restricted to active products, as in
Product.objects.get(id=value, is_active=True). -/
def findActiveProduct (ps : List Product) (pid : Nat) : Option Product :=
  ps.find? (fun p => p.pid == pid && p.isActive)

/-- Persisting a product instance, as in product.save(): the row with the
same primary key is overwritten with the instance. -/
def saveProduct (ps : List Product) (p : Product) : List Product :=
  ps.map (fun q => if q.pid == p.pid then p else q)

/-- Current stock of a product id, for stating the stock properties. -/
def stockOf (ps : List Product) (pid : Nat) : Option Int :=
  (findProduct ps pid).map (fun p => p.stock)

/-- Message produced by validate_items and validate_product_id in
shop/serializers.py when a cart line references a missing or inactive
product.  The f-string in the source interpolates nothing, so the message
is one fixed string. -/
def productNotFoundMsg : String := "Товар не найден"

/-- Message produced by validate_items in shop/serializers.py when the
requested quantity exceeds stock; it names the product. -/
def insufficientStockMsg (name : String) : String :=
  "Недостаточно товара \x27" ++ name ++ "\x27 на складе"

/-- Message produced by validate_items in shop/serializers.py when the
cart is empty. -/
def emptyCartMsg : String := "Корзина пуста"

/-- Error contribution of a single cart line in the loop of
OrderCreateSerializer.validate_items (shop/serializers.py lines 377-383). -/
def lineError (ps : List Product) (l : CartLine) : List String :=
  match findActiveProduct ps l.productId with
  | some p =>
      if p.stock < (l.quantity : Int) then [insufficientStockMsg p.name] else []
  | none => [productNotFoundMsg]

/-- OrderCreateSerializer.validate_items from shop/serializers.py: reject
an empty cart, otherwise accumulate the per-line errors in order and fail
with all of them when any accumulated. -/
def validateItems (ps : List Product) (lines : List CartLine) :
    Except (List String) (List CartLine) :=
  if lines = [] then .error [emptyCartMsg]
  else
    let errors := lines.foldl (fun acc l => acc ++ lineError ps l) []
    if errors = [] then .ok lines else .error errors

/-- Date and random draw consumed by order number generation, the
environment inputs of Order.save in shop/models.py. -/
structure Env where
  dateStr : String
  randStr : String
deriving DecidableEq, Repr

/-- Order number generation from Order.save in shop/models.py line 197:
the literal f-string NS-{date_str}-{random_str}. -/
def genOrderNumber (dateStr randStr : String) : String :=
  "NS-" ++ dateStr ++ "-" ++ randStr

/-- Order.save from shop/models.py lines 189-198: the number is generated
only when none is assigned yet, in a single attempt. -/
def orderNumberOnSave (current : String) (env : Env) : String :=
  if current = "" then genOrderNumber env.dateStr env.randStr else current

/-- The first loop of OrderCreateSerializer.create (shop/serializers.py
lines 398-405): each cart line is resolved with a fresh unfiltered
Product.objects.get before any row is written; a failed lookup raises and
aborts the whole call. -/
def resolveLines (ps : List Product) : List CartLine → Option (List (Product × Nat))
  | [] => some []
  | l :: ls =>
    match findProduct ps l.productId with
    | none => none
    | some p => (resolveLines ps ls).map (fun r => (p, l.quantity) :: r)

/-- Total accumulation of OrderCreateSerializer.create (shop/serializers.py
line 401): total_amount starts at zero and adds price times quantity per
resolved line. -/
def orderTotal (resolved : List (Product × Nat)) : Int :=
  resolved.foldl (fun acc pq => acc + pq.1.price * (pq.2 : Int)) 0

/-- OrderItem rows created by OrderCreateSerializer.create
(shop/serializers.py lines 424-430), snapshotting name and price. -/
def itemsOf (resolved : List (Product × Nat)) : List OrderItemRec :=
  resolved.map (fun pq =>
    { productRef := some pq.1.pid
      productName := pq.1.name
      price := pq.1.price
      quantity := pq.2 })

/-- The decrement loop of OrderCreateSerializer.create (shop/serializers.py
lines 420-434): each pre-fetched instance has its stock field reduced and
the whole stale instance is saved. -/
def applyDecrement (ps : List Product) (resolved : List (Product × Nat)) :
    List Product :=
  resolved.foldl
    (fun acc pq => saveProduct acc { pq.1 with stock := pq.1.stock - (pq.2 : Int) })
    ps

/-- Outcome of the order creation endpoint, from OrderCreateView.post in
shop/views.py. -/
inductive CreateOutcome where
  | created (oid : Nat)
  | validationFailed (errors : List String)
  | internalError
deriving DecidableEq, Repr

/-- The order row built by Order.objects.create inside
OrderCreateSerializer.create (shop/serializers.py lines 408-417): the
status defaults to pending, the number is generated by Order.save, and the
total is the accumulated sum. -/
def newOrder (env : Env) (s : Store) (userId : Option Nat)
    (resolved : List (Product × Nat)) : OrderRec :=
  { oid := s.nextOrderId
    orderNumber := orderNumberOnSave "" env
    userId := userId
    status := .pending
    totalAmount := orderTotal resolved
    items := itemsOf resolved }

/-- OrderCreateView.post plus OrderCreateSerializer.create: validate the
cart, resolve each line, generate the order number (the unique column
makes a colliding insert fail), insert the order with its items and apply
the stock decrements. -/
def createOrder (env : Env) (s : Store) (userId : Option Nat)
    (lines : List CartLine) : Store × CreateOutcome :=
  match validateItems s.products lines with
  | .error errs => (s, .validationFailed errs)
  | .ok _ =>
    match resolveLines s.products lines with
    | none => (s, .internalError)
    | some resolved =>
      let order := newOrder env s userId resolved
      if s.orders.any (fun o => o.orderNumber == order.orderNumber) then
        (s, .internalError)
      else
        ({ s with
            products := applyDecrement s.products resolved
            orders := s.orders ++ [order]
            nextOrderId := s.nextOrderId + 1 }, .created order.oid)

/-- Outcome of the cancellation endpoint, from OrderCancelView.post in
shop/views.py: the 404 not-found response, the 400 wrong-state response,
and success. -/
inductive CancelOutcome where
  | success
  | notFound
  | invalidTransition
deriving DecidableEq, Repr

/-- One step of the restock loop of OrderCancelView.post (shop/views.py
lines 612-615): items whose product reference is null are skipped;
otherwise the product row is read fresh and its stock increased. -/
def restockItem (ps : List Product) (it : OrderItemRec) : List Product :=
  match it.productRef with
  | none => ps
  | some pid =>
    match findProduct ps pid with
    | none => ps
    | some p => saveProduct ps { p with stock := p.stock + (it.quantity : Int) }

/-- Status assignment through the order queryset, as in order.save after
setting order.status. -/
def setOrderStatus (os : List OrderRec) (oid : Nat) (st : OrderStatus) :
    List OrderRec :=
  os.map (fun o => if o.oid == oid then { o with status := st } else o)

/-- Order.objects.get(id=id, user=request.user) from OrderCancelView.post
(shop/views.py line 599): resolution by id and owner together. -/
def findUserOrder (os : List OrderRec) (oid uid : Nat) : Option OrderRec :=
  os.find? (fun o => o.oid == oid && o.userId == some uid)

/-- OrderCancelView.post from shop/views.py lines 597-623: resolve the
order by id and owner, reject statuses other than pending and confirmed,
restock each surviving line item and mark the order cancelled. -/
def cancelOrder (s : Store) (uid : Nat) (oid : Nat) : Store × CancelOutcome :=
  match findUserOrder s.orders oid uid with
  | none => (s, .notFound)
  | some o =>
    if o.status = .pending ∨ o.status = .confirmed then
      ({ s with
          products := o.items.foldl restockItem s.products
          orders := setOrderStatus s.orders oid .cancelled }, .success)
    else (s, .invalidTransition)

/-- Restocking every item of one order, the inner loop of
OrderAdmin.mark_cancelled in shop/admin.py. -/
def restockOrder (ps : List Product) (o : OrderRec) : List Product :=
  o.items.foldl restockItem ps

/-- OrderAdmin.mark_cancelled from shop/admin.py lines 182-189: restock the
selected orders that are pending or confirmed, then set the status of every
selected order to cancelled. -/
def markCancelled (s : Store) (selected : List Nat) : Store :=
  let cancellable := s.orders.filter
    (fun o => selected.contains o.oid &&
      (o.status == OrderStatus.pending || o.status == OrderStatus.confirmed))
  { s with
      products := cancellable.foldl restockOrder s.products
      orders := s.orders.map
        (fun o => if selected.contains o.oid then { o with status := .cancelled } else o) }

/-- Outcome of the favorite-add endpoint, from FavoriteToggleView.post in
shop/views.py: the created response, the already-present response and the
validation failure. -/
inductive FavOutcome where
  | added
  | alreadyExists
  | invalidProduct
deriving DecidableEq, Repr

/-- FavoriteToggleView.post from shop/views.py lines 643-673 together with
FavoriteCreateSerializer: the product id must resolve to an active product,
then Favorite.objects.get_or_create inserts the pair only when absent. -/
def favoriteAdd (s : Store) (uid pid : Nat) : Store × FavOutcome :=
  match findActiveProduct s.products pid with
  | none => (s, .invalidProduct)
  | some _ =>
    if s.favorites.contains (uid, pid) then (s, .alreadyExists)
    else ({ s with favorites := (uid, pid) :: s.favorites }, .added)

/-- Iterated invocation of the favorite-add endpoint. -/
def favoriteAddN (s : Store) (uid pid : Nat) : Nat → Store
  | 0 => s
  | n + 1 => (favoriteAdd (favoriteAddN s uid pid n) uid pid).1

/-- Number of favorite rows for one user and product pair. -/
def favoriteCount (s : Store) (uid pid : Nat) : Nat :=
  s.favorites.countP (fun f => f == (uid, pid))

/-- User creation from django.contrib.auth create_user together with the
post_save receiver create_user_profile in shop/models.py lines 112-116:
creating the user synchronously creates exactly one linked profile. -/
def createUser (s : Store) (uid : Nat) : Store :=
  let withUser := { s with users := s.users ++ [uid] }
  { withUser with profiles := withUser.profiles ++ [{ userId := uid, phone := "" }] }

/-- Profile save of RegisterSerializer.create (shop/serializers.py lines
147-149): the phone of the profile linked to the user is updated. -/
def saveProfilePhone (profs : List ProfileRec) (uid : Nat) (phone : String) :
    List ProfileRec :=
  profs.map (fun pr => if pr.userId == uid then { pr with phone := phone } else pr)

/-- RegisterSerializer.create from shop/serializers.py lines 135-151:
create the user (the signal creates the profile) and then store the phone
on the automatically created profile. -/
def registerUser (s : Store) (uid : Nat) (phone : String) : Store :=
  let s1 := createUser s uid
  { s1 with profiles := saveProfilePhone s1.profiles uid phone }

/-- Number of profile rows linked to one user id. -/
def profileCount (s : Store) (uid : Nat) : Nat :=
  s.profiles.countP (fun pr => pr.userId == uid)

/-- Recomputation helper Order.get_total from shop/models.py lines 205-208:
the sum of price times quantity over the persisted line items. -/
def getTotal (o : OrderRec) : Int :=
  (o.items.map (fun it => it.price * (it.quantity : Int))).sum

/-- The order-number shape claimed by the specification, the regular
expression NS backslash-d 8 backslash-d 4 written out: literal NS- followed
by exactly twelve digits. -/
def matchesSpecNumberFormat (str : String) : Bool :=
  let cs := str.toList
  cs.length == 15 && cs.take 3 == ['N', 'S', '-'] && (cs.drop 3).all Char.isDigit

/-- The order-number shape the code actually produces: literal NS-, eight
digits, a hyphen, then four digits. -/
def matchesCodeNumberFormat (str : String) : Bool :=
  let cs := str.toList
  cs.length == 16 && cs.take 3 == ['N', 'S', '-'] &&
    ((cs.drop 3).take 8).all Char.isDigit &&
    (cs.drop 11).take 1 == ['-'] &&
    ((cs.drop 12).all Char.isDigit)

/-- A string of exactly n decimal digits, the shape of the strftime date
and of the four random draws. -/
def digitStringOfLen (str : String) (n : Nat) : Bool :=
  str.toList.length == n && str.toList.all Char.isDigit

/-- Collected validation errors of a cart, line by line in order; used to
state what validate_items reports. -/
def collectedErrors : List Product → List CartLine → List String
  | _, [] => []
  | ps, l :: ls => lineError ps l ++ collectedErrors ps ls

/-- Running total of the restock loop for one product id: each item whose
reference names that id contributes its quantity. -/
def restockSum : List OrderItemRec → Nat → Int
  | [], _ => 0
  | it :: rest, pid =>
    (if it.productRef = some pid then (it.quantity : Int) else 0) + restockSum rest pid

/-! ### Basic lookup and save lemmas -/

theorem findProduct_pid {ps : List Product} {pid : Nat} {p : Product}
    (h : findProduct ps pid = some p) : p.pid = pid := by
  have h1 := List.find?_some h
  simpa using h1

theorem findProduct_mem {ps : List Product} {pid : Nat} {p : Product}
    (h : findProduct ps pid = some p) : p ∈ ps :=
  List.mem_of_find?_eq_some h

theorem findActiveProduct_pid {ps : List Product} {pid : Nat} {p : Product}
    (h : findActiveProduct ps pid = some p) : p.pid = pid ∧ p.isActive = true := by
  have h1 := List.find?_some h
  simpa using h1

theorem saveProduct_cons (q : Product) (qs : List Product) (p : Product) :
    saveProduct (q :: qs) p = (if q.pid == p.pid then p else q) :: saveProduct qs p :=
  rfl

theorem findProduct_save_eq (ps : List Product) (p : Product) :
    findProduct (saveProduct ps p) p.pid = (findProduct ps p.pid).map (fun _ => p) := by
  induction ps with
  | nil => rfl
  | cons q qs ih =>
    rw [saveProduct_cons]
    by_cases h : q.pid = p.pid
    · rw [if_pos (by simpa using h)]
      have e1 : findProduct (p :: saveProduct qs p) p.pid = some p :=
        List.find?_cons_of_pos _ (by simp)
      have e2 : findProduct (q :: qs) p.pid = some q :=
        List.find?_cons_of_pos _ (by simpa using h)
      rw [e1, e2]
      rfl
    · rw [if_neg (by simpa using h)]
      have e1 : findProduct (q :: saveProduct qs p) p.pid = findProduct (saveProduct qs p) p.pid :=
        List.find?_cons_of_neg _ (by simpa using h)
      have e2 : findProduct (q :: qs) p.pid = findProduct qs p.pid :=
        List.find?_cons_of_neg _ (by simpa using h)
      rw [e1, e2]
      exact ih

theorem findProduct_save_ne (ps : List Product) (p : Product) (pid : Nat)
    (h : pid ≠ p.pid) :
    findProduct (saveProduct ps p) pid = findProduct ps pid := by
  induction ps with
  | nil => rfl
  | cons q qs ih =>
    rw [saveProduct_cons]
    by_cases hq : q.pid = pid
    · have hqp : ¬ (q.pid = p.pid) := by
        intro e
        exact h (by rw [← hq, e])
      rw [if_neg (by simpa using hqp)]
      have e1 : findProduct (q :: saveProduct qs p) pid = some q :=
        List.find?_cons_of_pos _ (by simpa using hq)
      have e2 : findProduct (q :: qs) pid = some q :=
        List.find?_cons_of_pos _ (by simpa using hq)
      rw [e1, e2]
    · by_cases hqp : q.pid = p.pid
      · rw [if_pos (by simpa using hqp)]
        have e1 : findProduct (p :: saveProduct qs p) pid = findProduct (saveProduct qs p) pid :=
          List.find?_cons_of_neg _ (by simpa using fun e => h e.symm)
        have e2 : findProduct (q :: qs) pid = findProduct qs pid :=
          List.find?_cons_of_neg _ (by simpa using hq)
        rw [e1, e2]
        exact ih
      · rw [if_neg (by simpa using hqp)]
        have e1 : findProduct (q :: saveProduct qs p) pid = findProduct (saveProduct qs p) pid :=
          List.find?_cons_of_neg _ (by simpa using hq)
        have e2 : findProduct (q :: qs) pid = findProduct qs pid :=
          List.find?_cons_of_neg _ (by simpa using hq)
        rw [e1, e2]
        exact ih

theorem findProduct_save_none {ps : List Product} {pid : Nat} (p : Product)
    (h : findProduct ps pid = none) :
    findProduct (saveProduct ps p) pid = none := by
  by_cases hp : pid = p.pid
  · subst hp
    rw [findProduct_save_eq, h]
    rfl
  · rw [findProduct_save_ne ps p pid hp, h]

theorem mem_saveProduct {ps : List Product} {p x : Product}
    (h : x ∈ saveProduct ps p) : x ∈ ps ∨ x = p := by
  simp only [saveProduct, List.mem_map] at h
  obtain ⟨q, hq, hx⟩ := h
  by_cases hc : q.pid = p.pid
  · right
    simp [hc] at hx
    exact hx.symm
  · left
    simp [if_neg (by simpa using hc)] at hx
    exact hx ▸ hq

theorem findProduct_eq_none_iff {ps : List Product} {pid : Nat} :
    findProduct ps pid = none ↔ pid ∉ ps.map (fun p => p.pid) := by
  simp only [findProduct, List.find?_eq_none, List.mem_map]
  constructor
  · rintro h ⟨p, hp, hpid⟩
    have hne : ¬ p.pid = pid := by simpa using h p hp
    exact hne hpid
  · intro h p hp
    simp only [beq_eq_false_iff_ne, ne_eq, Bool.not_eq_true]
    intro he
    exact h ⟨p, hp, by simpa using he⟩

/-! ### Properties of the stock decrement fold -/

theorem applyDecrement_cons (ps : List Product) (pq : Product × Nat)
    (r : List (Product × Nat)) :
    applyDecrement ps (pq :: r) =
      applyDecrement (saveProduct ps { pq.1 with stock := pq.1.stock - (pq.2 : Int) }) r :=
  rfl

theorem applyDecrement_find_not_mem (r : List (Product × Nat)) (ps : List Product)
    (pid : Nat) (h : pid ∉ r.map (fun pq => pq.1.pid)) :
    findProduct (applyDecrement ps r) pid = findProduct ps pid := by
  induction r generalizing ps with
  | nil => rfl
  | cons pq r ih =>
    rw [applyDecrement_cons]
    have hne : pid ≠ pq.1.pid := by
      intro e
      exact h (by simp [e])
    rw [ih _ (fun hm => h (by simp [List.mem_map] at hm ⊢; tauto))]
    exact findProduct_save_ne _ _ _ hne

theorem applyDecrement_find_mem (r : List (Product × Nat)) (ps : List Product)
    (pq : Product × Nat) (hnd : (r.map (fun x => x.1.pid)).Nodup)
    (hm : pq ∈ r) :
    findProduct (applyDecrement ps r) pq.1.pid =
      (findProduct ps pq.1.pid).map
        (fun _ => { pq.1 with stock := pq.1.stock - (pq.2 : Int) }) := by
  induction r generalizing ps with
  | nil => cases hm
  | cons hd r ih =>
    rw [applyDecrement_cons]
    rcases List.mem_cons.mp hm with he | ht
    · subst he
      have hnot : pq.1.pid ∉ r.map (fun x => x.1.pid) := by
        simpa using (List.nodup_cons.mp hnd).1
      rw [applyDecrement_find_not_mem r _ _ hnot]
      exact findProduct_save_eq ps { pq.1 with stock := pq.1.stock - (pq.2 : Int) }
    · have hne : pq.1.pid ≠ hd.1.pid := by
        intro e
        have hmem : hd.1.pid ∈ r.map (fun x => x.1.pid) := by
          simp only [List.mem_map]
          exact ⟨pq, ht, e⟩
        exact (List.nodup_cons.mp hnd).1 hmem
      have hstep :=
        findProduct_save_ne ps { hd.1 with stock := hd.1.stock - (hd.2 : Int) } pq.1.pid hne
      rw [ih _ (List.nodup_cons.mp hnd).2 ht, hstep]

theorem applyDecrement_nonneg (r : List (Product × Nat)) (ps : List Product)
    (hps : ∀ p ∈ ps, 0 ≤ p.stock)
    (hr : ∀ pq ∈ r, (pq.2 : Int) ≤ pq.1.stock) :
    ∀ p ∈ applyDecrement ps r, 0 ≤ p.stock := by
  induction r generalizing ps with
  | nil => exact hps
  | cons hd r ih =>
    rw [applyDecrement_cons]
    refine ih _ ?_ (fun pq hm => hr pq (List.mem_cons_of_mem _ hm))
    intro p hp
    rcases mem_saveProduct hp with hold | hnew
    · exact hps p hold
    · subst hnew
      have hb := hr hd (List.mem_cons_self _ _)
      show 0 ≤ hd.1.stock - (hd.2 : Int)
      omega

/-! ### Properties of the restock fold -/

theorem restock_fold_stock (items : List OrderItemRec) (ps : List Product)
    (pid : Nat) (p₀ : Product) (h : findProduct ps pid = some p₀) :
    stockOf (items.foldl restockItem ps) pid =
      some (p₀.stock + restockSum items pid) := by
  induction items generalizing ps p₀ with
  | nil =>
    simp [stockOf, h, restockSum]
  | cons it rest ih =>
    rw [List.foldl_cons]
    match href : it.productRef with
    | none =>
      have hstep : restockItem ps it = ps := by
        simp [restockItem, href]
      rw [hstep, ih ps p₀ h]
      simp [restockSum, href]
    | some pidj =>
      match hj : findProduct ps pidj with
      | none =>
        have hstep : restockItem ps it = ps := by
          simp [restockItem, href, hj]
        have hne : ¬ (it.productRef = some pid) := by
          rw [href]
          intro e
          rw [Option.some.injEq] at e
          rw [e] at hj
          rw [hj] at h
          cases h
        rw [hstep, ih ps p₀ h]
        simp [restockSum, hne]
      | some pj =>
        have hstep : restockItem ps it =
            saveProduct ps { pj with stock := pj.stock + (it.quantity : Int) } := by
          simp [restockItem, href, hj]
        have hpjpid : pj.pid = pidj := findProduct_pid hj
        rw [hstep]
        by_cases hc : pidj = pid
        · subst hc
          have hp₀ : pj = p₀ := by
            rw [hj] at h
            exact Option.some.injEq _ _ ▸ h
          subst hp₀
          have hfind : findProduct
              (saveProduct ps { pj with stock := pj.stock + (it.quantity : Int) }) pidj =
              some { pj with stock := pj.stock + (it.quantity : Int) } := by
            have := findProduct_save_eq ps { pj with stock := pj.stock + (it.quantity : Int) }
            simp only [hpjpid] at this ⊢
            rw [this, hj]
            rfl
          rw [ih _ _ hfind]
          simp only [restockSum, href, if_pos rfl]
          show some (pj.stock + (it.quantity : Int) + restockSum rest pidj) =
            some (pj.stock + ((it.quantity : Int) + restockSum rest pidj))
          rw [add_assoc]
        · have hfind : findProduct
              (saveProduct ps { pj with stock := pj.stock + (it.quantity : Int) }) pid =
              some p₀ := by
            rw [findProduct_save_ne _ _ _ (by simpa [hpjpid] using fun e => hc e.symm)]
            exact h
          rw [ih _ _ hfind]
          have hne : ¬ (it.productRef = some pid) := by
            rw [href]
            intro e
            exact hc (Option.some.injEq _ _ ▸ e)
          simp [restockSum, hne]

theorem restock_fold_none (items : List OrderItemRec) (ps : List Product)
    (pid : Nat) (h : findProduct ps pid = none) :
    findProduct (items.foldl restockItem ps) pid = none := by
  induction items generalizing ps with
  | nil => exact h
  | cons it rest ih =>
    rw [List.foldl_cons]
    refine ih _ ?_
    match href : it.productRef with
    | none => simpa [restockItem, href] using h
    | some pidj =>
      match hj : findProduct ps pidj with
      | none => simpa [restockItem, href, hj] using h
      | some pj =>
        have hstep : restockItem ps it =
            saveProduct ps { pj with stock := pj.stock + (it.quantity : Int) } := by
          simp [restockItem, href, hj]
        rw [hstep]
        exact findProduct_save_none _ h

theorem restock_fold_nonneg (items : List OrderItemRec) (ps : List Product)
    (hps : ∀ p ∈ ps, 0 ≤ p.stock) :
    ∀ p ∈ items.foldl restockItem ps, 0 ≤ p.stock := by
  induction items generalizing ps with
  | nil => exact hps
  | cons it rest ih =>
    rw [List.foldl_cons]
    refine ih _ ?_
    intro p hp
    match href : it.productRef with
    | none =>
      have : restockItem ps it = ps := by simp [restockItem, href]
      rw [this] at hp
      exact hps p hp
    | some pidj =>
      match hj : findProduct ps pidj with
      | none =>
        have : restockItem ps it = ps := by simp [restockItem, href, hj]
        rw [this] at hp
        exact hps p hp
      | some pj =>
        have hstep : restockItem ps it =
            saveProduct ps { pj with stock := pj.stock + (it.quantity : Int) } := by
          simp [restockItem, href, hj]
        rw [hstep] at hp
        rcases mem_saveProduct hp with hold | hnew
        · exact hps p hold
        · subst hnew
          have hb := hps pj (findProduct_mem hj)
          show 0 ≤ pj.stock + (it.quantity : Int)
          omega

/-! ### Properties of line resolution -/

theorem resolveLines_pids {ps : List Product} {lines : List CartLine}
    {r : List (Product × Nat)} (h : resolveLines ps lines = some r) :
    r.map (fun pq => pq.1.pid) = lines.map (fun l => l.productId) := by
  induction lines generalizing r with
  | nil =>
    simp only [resolveLines] at h
    cases h
    rfl
  | cons l ls ih =>
    simp only [resolveLines] at h
    match hf : findProduct ps l.productId with
    | none => rw [hf] at h; cases h
    | some p =>
      rw [hf] at h
      match hrec : resolveLines ps ls with
      | none => rw [hrec] at h; cases h
      | some r₀ =>
        rw [hrec] at h
        simp only [Option.map_some] at h
        cases h
        simp only [List.map_cons]
        rw [ih hrec, findProduct_pid hf]

theorem resolveLines_forall {ps : List Product} {lines : List CartLine}
    {r : List (Product × Nat)} (h : resolveLines ps lines = some r) :
    ∀ pq ∈ r, findProduct ps pq.1.pid = some pq.1 := by
  induction lines generalizing r with
  | nil =>
    simp only [resolveLines] at h
    cases h
    intro pq hm
    cases hm
  | cons l ls ih =>
    simp only [resolveLines] at h
    match hf : findProduct ps l.productId with
    | none => rw [hf] at h; cases h
    | some p =>
      rw [hf] at h
      match hrec : resolveLines ps ls with
      | none => rw [hrec] at h; cases h
      | some r₀ =>
        rw [hrec] at h
        simp only [Option.map_some] at h
        cases h
        intro pq hm
        rcases List.mem_cons.mp hm with he | ht
        · subst he
          rw [findProduct_pid hf]
          exact hf
        · exact ih hrec pq ht

theorem resolveLines_mem {ps : List Product} {lines : List CartLine}
    {r : List (Product × Nat)} (h : resolveLines ps lines = some r) :
    ∀ l ∈ lines, ∃ pq ∈ r,
      findProduct ps l.productId = some pq.1 ∧ pq.2 = l.quantity ∧
        pq.1.pid = l.productId := by
  induction lines generalizing r with
  | nil =>
    intro l hl
    cases hl
  | cons l₀ ls ih =>
    simp only [resolveLines] at h
    match hf : findProduct ps l₀.productId with
    | none => rw [hf] at h; cases h
    | some p =>
      rw [hf] at h
      match hrec : resolveLines ps ls with
      | none => rw [hrec] at h; cases h
      | some r₀ =>
        rw [hrec] at h
        simp only [Option.map_some] at h
        cases h
        intro l hl
        rcases List.mem_cons.mp hl with he | ht
        · subst he
          exact ⟨(p, l.quantity), List.mem_cons_self _ _, hf, rfl, findProduct_pid hf⟩
        · obtain ⟨pq, hmem, h1, h2, h3⟩ := ih hrec l ht
          exact ⟨pq, List.mem_cons_of_mem _ hmem, h1, h2, h3⟩

theorem resolveLines_mem_rev {ps : List Product} {lines : List CartLine}
    {r : List (Product × Nat)} (h : resolveLines ps lines = some r) :
    ∀ pq ∈ r, ∃ l ∈ lines,
      findProduct ps l.productId = some pq.1 ∧ pq.2 = l.quantity := by
  induction lines generalizing r with
  | nil =>
    simp only [resolveLines] at h
    cases h
    intro pq hm
    cases hm
  | cons l₀ ls ih =>
    simp only [resolveLines] at h
    match hf : findProduct ps l₀.productId with
    | none => rw [hf] at h; cases h
    | some p =>
      rw [hf] at h
      match hrec : resolveLines ps ls with
      | none => rw [hrec] at h; cases h
      | some r₀ =>
        rw [hrec] at h
        simp only [Option.map_some] at h
        cases h
        intro pq hm
        rcases List.mem_cons.mp hm with he | ht
        · subst he
          exact ⟨l₀, List.mem_cons_self _ _, hf, rfl⟩
        · obtain ⟨l, hmem, h1, h2⟩ := ih hrec pq ht
          exact ⟨l, List.mem_cons_of_mem _ hmem, h1, h2⟩

/-! ### Properties of cart validation -/

theorem foldl_append_collected (ps : List Product) (lines : List CartLine) :
    ∀ acc : List String,
      lines.foldl (fun a l => a ++ lineError ps l) acc = acc ++ collectedErrors ps lines := by
  induction lines with
  | nil => intro acc; simp [collectedErrors]
  | cons l ls ih =>
    intro acc
    rw [List.foldl_cons, ih (acc ++ lineError ps l)]
    simp [collectedErrors]

theorem collectedErrors_eq_nil {ps : List Product} {lines : List CartLine} :
    collectedErrors ps lines = [] ↔ ∀ l ∈ lines, lineError ps l = [] := by
  induction lines with
  | nil => simp [collectedErrors]
  | cons l ls ih =>
    simp only [collectedErrors, List.append_eq_nil, ih]
    constructor
    · rintro ⟨h1, h2⟩ l₀ hl
      rcases List.mem_cons.mp hl with he | ht
      · exact he ▸ h1
      · exact h2 l₀ ht
    · intro h
      exact ⟨h l (List.mem_cons_self _ _), fun l₀ hl => h l₀ (List.mem_cons_of_mem _ hl)⟩

theorem validateItems_eq (ps : List Product) (lines : List CartLine)
    (hne : lines ≠ []) :
    validateItems ps lines =
      if collectedErrors ps lines = [] then .ok lines
      else .error (collectedErrors ps lines) := by
  simp only [validateItems, if_neg hne]
  rw [foldl_append_collected ps lines []]
  rfl

theorem validateItems_ok_line {ps : List Product} {lines : List CartLine}
    {v : List CartLine} (h : validateItems ps lines = .ok v) :
    ∀ l ∈ lines, ∃ p, findActiveProduct ps l.productId = some p ∧
      (l.quantity : Int) ≤ p.stock := by
  intro l hl
  have hne : lines ≠ [] := by
    rintro rfl
    cases hl
  rw [validateItems_eq ps lines hne] at h
  by_cases hc : collectedErrors ps lines = []
  · have hline : lineError ps l = [] := collectedErrors_eq_nil.mp hc l hl
    simp only [lineError] at hline
    match hf : findActiveProduct ps l.productId with
    | none => rw [hf] at hline; cases hline
    | some p =>
      rw [hf] at hline
      have hline2 : (if p.stock < (l.quantity : Int)
          then [insufficientStockMsg p.name] else []) = ([] : List String) := hline
      by_cases hs : p.stock < (l.quantity : Int)
      · rw [if_pos hs] at hline2; cases hline2
      · exact ⟨p, rfl, le_of_not_lt hs⟩
  · rw [if_neg hc] at h
    cases h

/-! ### Agreement of the filtered and unfiltered lookups -/

theorem findActiveProduct_none_of_not_mem {ps : List Product} {pid : Nat}
    (h : pid ∉ ps.map (fun p => p.pid)) : findActiveProduct ps pid = none := by
  rw [findActiveProduct, List.find?_eq_none]
  intro p hp
  simp only [Bool.and_eq_true, beq_iff_eq, not_and, Bool.not_eq_true]
  intro he
  exact absurd (List.mem_map.mpr ⟨p, hp, he⟩) h

theorem findActive_findProduct {ps : List Product} {pid : Nat} {p : Product}
    (hnd : (ps.map (fun q => q.pid)).Nodup)
    (h : findActiveProduct ps pid = some p) :
    findProduct ps pid = some p := by
  induction ps with
  | nil => cases h
  | cons q qs ih =>
    by_cases hq : q.pid = pid
    · by_cases ha : q.isActive
      · have e1 : findActiveProduct (q :: qs) pid = some q :=
          List.find?_cons_of_pos _ (by simp [hq, ha])
        rw [e1] at h
        cases h
        exact List.find?_cons_of_pos _ (by simpa using hq)
      · have e1 : findActiveProduct (q :: qs) pid = findActiveProduct qs pid :=
          List.find?_cons_of_neg _ (by simp [ha])
        rw [e1] at h
        have hnot : pid ∉ qs.map (fun x => x.pid) := by
          have := (List.nodup_cons.mp hnd).1
          simpa [hq] using this
        rw [findActiveProduct_none_of_not_mem hnot] at h
        cases h
    · have e1 : findActiveProduct (q :: qs) pid = findActiveProduct qs pid :=
        List.find?_cons_of_neg _ (by simp [hq])
      have e2 : findProduct (q :: qs) pid = findProduct qs pid :=
        List.find?_cons_of_neg _ (by simpa using hq)
      rw [e1] at h
      rw [e2]
      exact ih (List.nodup_cons.mp hnd).2 h

/-! ### Restock sums over the items of a fresh order -/

theorem restockSum_itemsOf_not_mem (r : List (Product × Nat)) (pid : Nat)
    (h : pid ∉ r.map (fun pq => pq.1.pid)) :
    restockSum (itemsOf r) pid = 0 := by
  induction r with
  | nil => rfl
  | cons hd rest ih =>
    have hne : ¬ (hd.1.pid = pid) := by
      intro e
      exact h (by simp [e])
    show (if (some hd.1.pid = some pid) then ((hd.2 : Int)) else 0) +
      restockSum (itemsOf rest) pid = 0
    rw [if_neg (by simpa using hne), ih (fun hm => h (by simp at hm ⊢; tauto))]
    rfl

theorem restockSum_itemsOf_mem (r : List (Product × Nat)) (pid : Nat)
    (pq : Product × Nat) (hnd : (r.map (fun x => x.1.pid)).Nodup)
    (hm : pq ∈ r) (hpid : pq.1.pid = pid) :
    restockSum (itemsOf r) pid = (pq.2 : Int) := by
  induction r with
  | nil => cases hm
  | cons hd rest ih =>
    show (if (some hd.1.pid = some pid) then ((hd.2 : Int)) else 0) +
      restockSum (itemsOf rest) pid = (pq.2 : Int)
    rcases List.mem_cons.mp hm with he | ht
    · subst he
      rw [if_pos (by rw [hpid])]
      have hnot : pid ∉ rest.map (fun x => x.1.pid) := by
        have := (List.nodup_cons.mp hnd).1
        simpa [hpid] using this
      rw [restockSum_itemsOf_not_mem rest pid hnot]
      rw [add_zero]
    · have hne : ¬ (hd.1.pid = pid) := by
        intro e
        have hmem : hd.1.pid ∈ rest.map (fun x => x.1.pid) := by
          simp only [List.mem_map]
          exact ⟨pq, ht, by rw [hpid, e]⟩
        exact (List.nodup_cons.mp hnd).1 hmem
      rw [if_neg (by simpa using hne), ih (List.nodup_cons.mp hnd).2 ht]
      rw [zero_add]

/-! ### Order lookup lemmas -/

theorem findUserOrder_append_new (os : List OrderRec) (ord : OrderRec) (uid : Nat)
    (h : ∀ o ∈ os, o.oid ≠ ord.oid) (hu : ord.userId = some uid) :
    findUserOrder (os ++ [ord]) ord.oid uid = some ord := by
  induction os with
  | nil =>
    show List.find? _ [ord] = some ord
    exact List.find?_cons_of_pos _ (by simp [hu])
  | cons o os ih =>
    have e1 : findUserOrder ((o :: os) ++ [ord]) ord.oid uid =
        findUserOrder (os ++ [ord]) ord.oid uid := by
      refine List.find?_cons_of_neg _ ?_
      simp only [Bool.and_eq_true, beq_iff_eq, not_and]
      intro he
      exact absurd he (h o (List.mem_cons_self _ _))
    rw [e1]
    exact ih (fun o₀ hm => h o₀ (List.mem_cons_of_mem _ hm))

/-! ### Characterization of a successful order creation -/

theorem createOrder_created {env : Env} {s : Store} {userId : Option Nat}
    {lines : List CartLine} {s₁ : Store} {oid : Nat}
    (h : createOrder env s userId lines = (s₁, .created oid)) :
    ∃ r, resolveLines s.products lines = some r ∧
      validateItems s.products lines = .ok lines ∧
      (∀ o ∈ s.orders, o.orderNumber ≠ (newOrder env s userId r).orderNumber) ∧
      oid = s.nextOrderId ∧
      s₁ = { s with
              products := applyDecrement s.products r
              orders := s.orders ++ [newOrder env s userId r]
              nextOrderId := s.nextOrderId + 1 } := by
  unfold createOrder at h
  match hv : validateItems s.products lines with
  | .error errs =>
    rw [hv] at h
    injection h with h1 h2
    cases h2
  | .ok v =>
    have hv2 : validateItems s.products lines = .ok lines := by
      have : v = lines := by
        unfold validateItems at hv
        by_cases hc : lines = []
        · rw [if_pos hc] at hv; cases hv
        · rw [if_neg hc] at hv
          by_cases he : lines.foldl (fun a l => a ++ lineError s.products l) [] = []
          · rw [if_pos he] at hv
            injection hv with hv
            exact hv.symm
          · rw [if_neg he] at hv; cases hv
      rw [this] at hv
      exact hv
    rw [hv] at h
    match hr : resolveLines s.products lines with
    | none =>
      rw [hr] at h
      injection h with h1 h2
      cases h2
    | some r =>
      rw [hr] at h
      have h' : (if (s.orders.any
            (fun o => o.orderNumber == (newOrder env s userId r).orderNumber)) = true
          then (s, CreateOutcome.internalError)
          else ({ s with
                  products := applyDecrement s.products r
                  orders := s.orders ++ [newOrder env s userId r]
                  nextOrderId := s.nextOrderId + 1 },
            CreateOutcome.created (newOrder env s userId r).oid))
          = (s₁, CreateOutcome.created oid) := h
      by_cases hcol : s.orders.any
          (fun o => o.orderNumber == (newOrder env s userId r).orderNumber) = true
      · rw [if_pos hcol] at h'
        injection h' with h1 h2
        cases h2
      · rw [if_neg hcol] at h'
        injection h' with h1 h2
        refine ⟨r, rfl, hv ▸ hv2, ?_, ?_, h1.symm⟩
        · intro o hm he
          refine hcol ?_
          rw [List.any_eq_true]
          exact ⟨o, hm, by simpa using he⟩
        · injection h2 with h3
          exact h3.symm

theorem validateItems_ok_val {ps : List Product} {lines v : List CartLine}
    (hv : validateItems ps lines = .ok v) : v = lines := by
  unfold validateItems at hv
  by_cases hc : lines = []
  · rw [if_pos hc] at hv; cases hv
  · rw [if_neg hc] at hv
    by_cases he : lines.foldl (fun a l => a ++ lineError ps l) [] = []
    · rw [if_pos he] at hv
      injection hv with hv
      exact hv.symm
    · rw [if_neg he] at hv; cases hv

theorem createOrder_store_products (env : Env) (s : Store) (userId : Option Nat)
    (lines : List CartLine) :
    (createOrder env s userId lines).1.products = s.products ∨
    ∃ r, resolveLines s.products lines = some r ∧
      validateItems s.products lines = .ok lines ∧
      (createOrder env s userId lines).1.products = applyDecrement s.products r := by
  unfold createOrder
  match hv : validateItems s.products lines with
  | .error errs => exact Or.inl rfl
  | .ok v =>
    have hvl : v = lines := validateItems_ok_val hv
    match hr : resolveLines s.products lines with
    | none => exact Or.inl rfl
    | some r =>
      by_cases hcol : (s.orders.any
          (fun o => o.orderNumber == (newOrder env s userId r).orderNumber)) = true
      · refine Or.inl ?_
        show (if (s.orders.any
              (fun o => o.orderNumber == (newOrder env s userId r).orderNumber)) = true
            then (s, CreateOutcome.internalError)
            else ({ s with
                    products := applyDecrement s.products r
                    orders := s.orders ++ [newOrder env s userId r]
                    nextOrderId := s.nextOrderId + 1 },
              CreateOutcome.created (newOrder env s userId r).oid)).1.products = s.products
        rw [if_pos hcol]
      · refine Or.inr ⟨r, rfl, congrArg Except.ok hvl, ?_⟩
        show (if (s.orders.any
              (fun o => o.orderNumber == (newOrder env s userId r).orderNumber)) = true
            then (s, CreateOutcome.internalError)
            else ({ s with
                    products := applyDecrement s.products r
                    orders := s.orders ++ [newOrder env s userId r]
                    nextOrderId := s.nextOrderId + 1 },
              CreateOutcome.created (newOrder env s userId r).oid)).1.products =
          applyDecrement s.products r
        rw [if_neg hcol]

theorem cancelOrder_none {s : Store} {uid oid : Nat}
    (h : findUserOrder s.orders oid uid = none) :
    cancelOrder s uid oid = (s, .notFound) := by
  unfold cancelOrder
  rw [h]

theorem cancelOrder_found_ok {s : Store} {uid oid : Nat} {o : OrderRec}
    (h : findUserOrder s.orders oid uid = some o)
    (hst : o.status = .pending ∨ o.status = .confirmed) :
    cancelOrder s uid oid =
      ({ s with
          products := o.items.foldl restockItem s.products
          orders := setOrderStatus s.orders oid .cancelled }, .success) := by
  unfold cancelOrder
  rw [h]
  show (if o.status = .pending ∨ o.status = .confirmed
      then ({ s with
              products := o.items.foldl restockItem s.products
              orders := setOrderStatus s.orders oid .cancelled }, CancelOutcome.success)
      else (s, CancelOutcome.invalidTransition)) = _
  rw [if_pos hst]

theorem cancelOrder_found_bad {s : Store} {uid oid : Nat} {o : OrderRec}
    (h : findUserOrder s.orders oid uid = some o)
    (hst : ¬ (o.status = .pending ∨ o.status = .confirmed)) :
    cancelOrder s uid oid = (s, .invalidTransition) := by
  unfold cancelOrder
  rw [h]
  show (if o.status = .pending ∨ o.status = .confirmed
      then ({ s with
              products := o.items.foldl restockItem s.products
              orders := setOrderStatus s.orders oid .cancelled }, CancelOutcome.success)
      else (s, CancelOutcome.invalidTransition)) = _
  rw [if_neg hst]

theorem cancelOrder_store_products (s : Store) (uid oid : Nat) :
    (cancelOrder s uid oid).1.products = s.products ∨
    ∃ o, findUserOrder s.orders oid uid = some o ∧
      (cancelOrder s uid oid).1.products = o.items.foldl restockItem s.products := by
  match ho : findUserOrder s.orders oid uid with
  | none => rw [cancelOrder_none ho]; exact Or.inl rfl
  | some o =>
    by_cases hst : o.status = .pending ∨ o.status = .confirmed
    · rw [cancelOrder_found_ok ho hst]
      exact Or.inr ⟨o, rfl, rfl⟩
    · rw [cancelOrder_found_bad ho hst]
      exact Or.inl rfl

theorem orderTotal_eq_items (resolved : List (Product × Nat)) :
    orderTotal resolved =
      ((itemsOf resolved).map (fun it => it.price * (it.quantity : Int))).sum := by
  have haux : ∀ (l : List (Product × Nat)) (acc : Int),
      l.foldl (fun a pq => a + pq.1.price * (pq.2 : Int)) acc =
        acc + ((itemsOf l).map (fun it => it.price * (it.quantity : Int))).sum := by
    intro l
    induction l with
    | nil => intro acc; simp [itemsOf]
    | cons hd tl ih =>
      intro acc
      rw [List.foldl_cons, ih]
      simp only [itemsOf, List.map_cons, List.sum_cons]
      ring
  rw [orderTotal, haux, zero_add]

/-! ### Sample data used by the concrete witnesses -/

/-- A small active product used for concrete instantiations. -/
def demoProduct : Product :=
  { pid := 1, name := "alpha", price := 100, stock := 5, isActive := true }

/-- A second active product used for concrete instantiations. -/
def demoProductB : Product :=
  { pid := 2, name := "beta", price := 250, stock := 4, isActive := true }

/-- A fixed generation environment used for concrete instantiations. -/
def demoEnv : Env := { dateStr := "20250101", randStr := "1234" }

/-- A small concrete store with two products and no orders. -/
def demoStore : Store :=
  { products := [demoProduct, demoProductB], orders := [], favorites := [],
    users := [], profiles := [], nextOrderId := 0 }

/-- A shipped order owned by user 5, for the cancellation witnesses. -/
def demoShippedOrder : OrderRec :=
  { oid := 1, orderNumber := "NS-20250101-0001", userId := some 5,
    status := .shipped, totalAmount := 0, items := [] }

/-- A store holding only the shipped order of user 5. -/
def demoShippedStore : Store :=
  { products := [], orders := [demoShippedOrder], favorites := [],
    users := [], profiles := [], nextOrderId := 2 }

/-! ### C2: stock nonnegativity -/

/-- C2: starting from a store with pairwise distinct product ids and all
stocks nonnegative, neither createOrder on any cart (accepted or rejected,
duplicate lines included) nor cancelOrder ever leaves a product with
negative stock. -/
theorem stock_never_negative {env : Env} {s : Store} {userId : Option Nat}
    {lines : List CartLine} {uid oid : Nat}
    (hwf : (s.products.map (fun p => p.pid)).Nodup)
    (hpos : ∀ p ∈ s.products, 0 ≤ p.stock) :
    (∀ p ∈ (createOrder env s userId lines).1.products, 0 ≤ p.stock) ∧
    (∀ p ∈ (cancelOrder s uid oid).1.products, 0 ≤ p.stock) := by
  constructor
  · rcases createOrder_store_products env s userId lines with hsame | ⟨r, hr, hv, heq⟩
    · rw [hsame]; exact hpos
    · rw [heq]
      refine applyDecrement_nonneg r s.products hpos ?_
      intro pq hm
      obtain ⟨l, hl, hfind, hq⟩ := resolveLines_mem_rev hr pq hm
      obtain ⟨pa, hfa, hs⟩ := validateItems_ok_line hv l hl
      have hfp := findActive_findProduct hwf hfa
      rw [hfind] at hfp
      injection hfp with hpe
      rw [hq, hpe]
      exact hs
  · rcases cancelOrder_store_products s uid oid with hsame | ⟨o, ho, heq⟩
    · rw [hsame]; exact hpos
    · rw [heq]
      exact restock_fold_nonneg o.items s.products hpos

/-- Witness for the C2 theorem: the concrete demo store, a duplicate-line
cart, and a cancellation attempt. -/
theorem stock_never_negative_witness :
    (∀ p ∈ (createOrder demoEnv demoStore (some 5)
        [⟨1, 2⟩, ⟨1, 1⟩]).1.products, 0 ≤ p.stock) ∧
    (∀ p ∈ (cancelOrder demoStore 5 0).1.products, 0 ≤ p.stock) :=
  stock_never_negative (by decide) (by decide)

/-! ### C5: cancellation state machine -/

/-- C5: given that the order resolves for the requesting user, cancelOrder
succeeds exactly when the prior status is pending or confirmed, and from
processing, shipped, delivered or cancelled it returns the
invalid-transition outcome leaving the whole store, hence every status and
every stock, unchanged. -/
theorem cancelOrder_state_machine {s : Store} {uid oid : Nat} {o : OrderRec}
    (h : findUserOrder s.orders oid uid = some o) :
    ((cancelOrder s uid oid).2 = .success ↔
      (o.status = .pending ∨ o.status = .confirmed)) ∧
    ((o.status = .processing ∨ o.status = .shipped ∨ o.status = .delivered ∨
        o.status = .cancelled) →
      cancelOrder s uid oid = (s, .invalidTransition)) := by
  by_cases hst : o.status = .pending ∨ o.status = .confirmed
  · rw [cancelOrder_found_ok h hst]
    refine ⟨⟨fun _ => hst, fun _ => rfl⟩, ?_⟩
    rintro (h1 | h1 | h1 | h1) <;>
      rcases hst with h2 | h2 <;> rw [h1] at h2 <;> cases h2
  · rw [cancelOrder_found_bad h hst]
    refine ⟨⟨fun hc => ?_, fun hc => absurd hc hst⟩, fun _ => rfl⟩
    cases hc

/-- Witness for the C5 theorem at a concrete shipped order. -/
theorem cancelOrder_state_machine_witness :
    ((cancelOrder demoShippedStore 5 1).2 = .success ↔
      (demoShippedOrder.status = .pending ∨ demoShippedOrder.status = .confirmed)) ∧
    ((demoShippedOrder.status = .processing ∨ demoShippedOrder.status = .shipped ∨
        demoShippedOrder.status = .delivered ∨ demoShippedOrder.status = .cancelled) →
      cancelOrder demoShippedStore 5 1 = (demoShippedStore, .invalidTransition)) :=
  cancelOrder_state_machine (by decide)

/-! ### C7: exact total amount -/

/-- C7: every successfully created order carries a total equal to the exact
sum of price times quantity over the resolved products, which equals the
sum of price times quantity over its persisted snapshot line items; all
arithmetic is exact fixed-point integer arithmetic. -/
theorem total_amount_exact {env : Env} {s : Store} {userId : Option Nat}
    {lines : List CartLine} {s₁ : Store} {oid : Nat}
    (h : createOrder env s userId lines = (s₁, .created oid)) :
    ∃ r o, resolveLines s.products lines = some r ∧ o ∈ s₁.orders ∧
      o.oid = oid ∧ o.totalAmount = orderTotal r ∧ o.totalAmount = getTotal o := by
  obtain ⟨r, hr, hv, hcol, hoid, hs⟩ := createOrder_created h
  refine ⟨r, newOrder env s userId r, hr, ?_, hoid.symm, rfl, ?_⟩
  · rw [hs]
    exact List.mem_append_right _ (List.mem_cons_self _ _)
  · show orderTotal r = getTotal (newOrder env s userId r)
    show orderTotal r =
      ((itemsOf r).map (fun it => it.price * (it.quantity : Int))).sum
    exact orderTotal_eq_items r

/-- Witness for the C7 theorem: a concrete two-line order over the demo
store. -/
theorem total_amount_exact_witness :
    ∃ r o, resolveLines demoStore.products [⟨1, 2⟩, ⟨2, 1⟩] = some r ∧
      o ∈ (createOrder demoEnv demoStore (some 5) [⟨1, 2⟩, ⟨2, 1⟩]).1.orders ∧
      o.oid = 0 ∧ o.totalAmount = orderTotal r ∧ o.totalAmount = getTotal o :=
  total_amount_exact (by rfl)

/-! ### C8: uniform not-found on cancellation -/

/-- C8: cancelOrder yields the identical not-found outcome both when no
order has the requested id and when every order with that id belongs to a
different user, in each case leaving the store unchanged, so the response
never reveals whether the id exists for another user. -/
theorem cancelOrder_notFound_uniform {s : Store} {uid oid₁ oid₂ : Nat}
    (h1 : ∀ o ∈ s.orders, o.oid ≠ oid₁)
    (h2 : ∀ o ∈ s.orders, o.oid = oid₂ → o.userId ≠ some uid) :
    cancelOrder s uid oid₁ = (s, .notFound) ∧
    cancelOrder s uid oid₂ = (s, .notFound) ∧
    (cancelOrder s uid oid₁).2 = (cancelOrder s uid oid₂).2 := by
  have f1 : findUserOrder s.orders oid₁ uid = none := by
    rw [findUserOrder, List.find?_eq_none]
    intro o hm
    simp only [Bool.and_eq_true, beq_iff_eq, not_and]
    intro he
    exact absurd he (h1 o hm)
  have f2 : findUserOrder s.orders oid₂ uid = none := by
    rw [findUserOrder, List.find?_eq_none]
    intro o hm
    simp only [Bool.and_eq_true, beq_iff_eq, not_and]
    intro he hu
    exact h2 o hm he hu
  rw [cancelOrder_none f1, cancelOrder_none f2]
  exact ⟨rfl, rfl, rfl⟩

/-- Witness for the C8 theorem: order id 3 does not exist and order id 1
belongs to user 5, queried as user 9. -/
theorem cancelOrder_notFound_uniform_witness :
    cancelOrder demoShippedStore 9 3 = (demoShippedStore, .notFound) ∧
    cancelOrder demoShippedStore 9 1 = (demoShippedStore, .notFound) ∧
    (cancelOrder demoShippedStore 9 3).2 = (cancelOrder demoShippedStore 9 1).2 :=
  cancelOrder_notFound_uniform (by decide) (by decide)

/-! ### C1: conservation of stock across create and cancel -/

/-- C1 (amended): for carts in which each product id appears on at most one
line, a successful createOrder decrements every resolved product by exactly
its line quantity, and the owner cancelling the fresh order succeeds and
restores every stock exactly; line items with a null product reference are
skipped by the restock step without blocking cancellation. -/
theorem create_cancel_conservation {env : Env} {s : Store} {uid : Nat}
    {lines : List CartLine} {s₁ : Store} {oid : Nat}
    (hwfo : ∀ o ∈ s.orders, o.oid < s.nextOrderId)
    (hnd : (lines.map (fun l => l.productId)).Nodup)
    (h : createOrder env s (some uid) lines = (s₁, .created oid)) :
    (∀ l ∈ lines, ∃ p, findProduct s.products l.productId = some p ∧
        stockOf s₁.products l.productId = some (p.stock - (l.quantity : Int))) ∧
    (∃ s₂, cancelOrder s₁ uid oid = (s₂, .success) ∧
        ∀ pid, stockOf s₂.products pid = stockOf s.products pid) ∧
    (∀ ps it, it.productRef = none → restockItem ps it = ps) := by
  obtain ⟨r, hr, hv, hcol, hoid, hs⟩ := createOrder_created h
  have hpids : r.map (fun pq => pq.1.pid) = lines.map (fun l => l.productId) :=
    resolveLines_pids hr
  have hrnd : (r.map (fun pq => pq.1.pid)).Nodup := by rw [hpids]; exact hnd
  refine ⟨?_, ?_, ?_⟩
  · intro l hl
    obtain ⟨pq, hm, hfind, hq, hpid⟩ := resolveLines_mem hr l hl
    refine ⟨pq.1, hfind, ?_⟩
    have hdec := applyDecrement_find_mem r s.products pq hrnd hm
    have hfind2 : findProduct s.products pq.1.pid = some pq.1 := by
      rw [hpid]; exact hfind
    rw [hs]
    show stockOf (applyDecrement s.products r) l.productId = _
    rw [stockOf, ← hpid, hdec, hfind2]
    show some (pq.1.stock - (pq.2 : Int)) = some (pq.1.stock - (l.quantity : Int))
    rw [hq]
  · have hfound : findUserOrder s₁.orders oid uid = some (newOrder env s (some uid) r) := by
      rw [hs, hoid]
      show findUserOrder (s.orders ++ [newOrder env s (some uid) r])
        s.nextOrderId uid = some (newOrder env s (some uid) r)
      exact findUserOrder_append_new _ _ _
        (fun o hm => Nat.ne_of_lt (hwfo o hm)) rfl
    have hok := cancelOrder_found_ok hfound (Or.inl rfl)
    refine ⟨_, hok, ?_⟩
    intro pid
    show stockOf ((newOrder env s (some uid) r).items.foldl restockItem s₁.products) pid =
      stockOf s.products pid
    rw [hs]
    show stockOf ((itemsOf r).foldl restockItem (applyDecrement s.products r)) pid =
      stockOf s.products pid
    by_cases hmem : pid ∈ r.map (fun pq => pq.1.pid)
    · obtain ⟨pq, hpq, hpidq⟩ := List.mem_map.mp hmem
      have hfind := resolveLines_forall hr pq hpq
      have hdec := applyDecrement_find_mem r s.products pq hrnd hpq
      rw [hfind] at hdec
      have hrest := restock_fold_stock (itemsOf r) (applyDecrement s.products r)
        pq.1.pid _ hdec
      rw [restockSum_itemsOf_mem r pq.1.pid pq hrnd hpq rfl] at hrest
      rw [← hpidq, hrest, stockOf, hfind]
      show some (pq.1.stock - (pq.2 : Int) + (pq.2 : Int)) = some pq.1.stock
      rw [sub_add_cancel]
    · have hdec := applyDecrement_find_not_mem r s.products pid hmem
      cases hcase : findProduct s.products pid with
      | none =>
        rw [hcase] at hdec
        have hnone := restock_fold_none (itemsOf r) _ pid hdec
        rw [stockOf, hnone, stockOf, hcase]
      | some p₀ =>
        rw [hcase] at hdec
        have hrest := restock_fold_stock (itemsOf r) _ pid p₀ hdec
        rw [restockSum_itemsOf_not_mem r pid hmem] at hrest
        rw [hrest, stockOf, hcase]
        show some (p₀.stock + 0) = some p₀.stock
        rw [add_zero]
  · intro ps it hnone
    simp [restockItem, hnone]

/-- Witness for the C1 theorem: a concrete two-line cart without repeated
products over the demo store, created and then cancelled by user 5. -/
theorem create_cancel_conservation_witness :
    (∀ l ∈ [CartLine.mk 1 2, CartLine.mk 2 1],
      ∃ p, findProduct demoStore.products l.productId = some p ∧
        stockOf (createOrder demoEnv demoStore (some 5)
            [CartLine.mk 1 2, CartLine.mk 2 1]).1.products l.productId =
          some (p.stock - (l.quantity : Int))) ∧
    (∃ s₂, cancelOrder (createOrder demoEnv demoStore (some 5)
          [CartLine.mk 1 2, CartLine.mk 2 1]).1 5 0 = (s₂, .success) ∧
        ∀ pid, stockOf s₂.products pid = stockOf demoStore.products pid) ∧
    (∀ ps it, it.productRef = none → restockItem ps it = ps) :=
  create_cancel_conservation (by decide) (by decide) (by rfl)

/-- C1 as literally stated fails on a cart naming the same product twice:
product 1 starts with stock 5, the cart orders 2 and then 1 of it, the
creation succeeds but leaves stock 4 (only the last decrement survives,
instead of 5 - 2 - 1 = 2 or the per-line 5 - 2 = 3), and the subsequent
successful cancellation restocks both line quantities, ending at 7 instead
of the original 5. -/
theorem create_cancel_conservation_counterexample :
    (createOrder demoEnv demoStore (some 5) [CartLine.mk 1 2, CartLine.mk 1 1]).2 =
      .created 0 ∧
    stockOf (createOrder demoEnv demoStore (some 5)
        [CartLine.mk 1 2, CartLine.mk 1 1]).1.products 1 = some 4 ∧
    (4 : Int) ≠ 5 - 2 - 1 ∧ (4 : Int) ≠ 5 - 2 ∧
    (cancelOrder (createOrder demoEnv demoStore (some 5)
        [CartLine.mk 1 2, CartLine.mk 1 1]).1 5 0).2 = .success ∧
    stockOf (cancelOrder (createOrder demoEnv demoStore (some 5)
        [CartLine.mk 1 2, CartLine.mk 1 1]).1 5 0).1.products 1 = some 7 ∧
    stockOf demoStore.products 1 = some 5 ∧ (7 : Int) ≠ 5 := by
  refine ⟨rfl, rfl, by decide, by decide, rfl, rfl, rfl, by decide⟩

/-! ### C3: validation algorithm -/

/-- C3 (amended): validate_items rejects the empty cart with the
empty-cart error; otherwise it accumulates, in cart order, one error per
failing line (a fixed product-not-found message carrying no product
identity for a missing or inactive product, and an insufficient-stock
message naming the product when stock is below the requested quantity),
fails with the full accumulated list when it is nonempty, and a validation
failure leaves the store completely unchanged. -/
theorem validateItems_algorithm (ps : List Product) (lines : List CartLine)
    (env : Env) (s : Store) (userId : Option Nat) :
    (validateItems ps [] = .error [emptyCartMsg]) ∧
    (lines ≠ [] → validateItems ps lines =
      if collectedErrors ps lines = [] then .ok lines
      else .error (collectedErrors ps lines)) ∧
    (∀ l, lineError ps l =
      match findActiveProduct ps l.productId with
      | some p => if p.stock < (l.quantity : Int)
          then [insufficientStockMsg p.name] else []
      | none => [productNotFoundMsg]) ∧
    (∀ errs, validateItems s.products lines = .error errs →
      createOrder env s userId lines = (s, .validationFailed errs)) := by
  refine ⟨rfl, validateItems_eq ps lines, fun l => rfl, ?_⟩
  intro errs he
  unfold createOrder
  rw [he]

/-- Witness for the C3 theorem evaluated at the demo store and a cart
requesting more stock than available. -/
theorem validateItems_algorithm_witness :
    (validateItems demoStore.products [] = .error [emptyCartMsg]) ∧
    ([CartLine.mk 1 9] ≠ [] → validateItems demoStore.products [CartLine.mk 1 9] =
      if collectedErrors demoStore.products [CartLine.mk 1 9] = [] then .ok [CartLine.mk 1 9]
      else .error (collectedErrors demoStore.products [CartLine.mk 1 9])) ∧
    (∀ l, lineError demoStore.products l =
      match findActiveProduct demoStore.products l.productId with
      | some p => if p.stock < (l.quantity : Int)
          then [insufficientStockMsg p.name] else []
      | none => [productNotFoundMsg]) ∧
    (∀ errs, validateItems demoStore.products [CartLine.mk 1 9] = .error errs →
      createOrder demoEnv demoStore (some 5) [CartLine.mk 1 9] =
        (demoStore, .validationFailed errs)) :=
  validateItems_algorithm demoStore.products [CartLine.mk 1 9] demoEnv demoStore (some 5)

/-- C3 as literally stated fails: the error accumulated for a missing
product is the fixed string with no product identity, so the reports for a
cart naming missing product 7 and a cart naming missing product 8 are
identical, and a two-line cart of two distinct missing products yields the
same message twice. -/
theorem validateItems_algorithm_counterexample :
    validateItems [] [CartLine.mk 7 1] = validateItems [] [CartLine.mk 8 1] ∧
    validateItems [] [CartLine.mk 7 1, CartLine.mk 8 1] =
      .error [productNotFoundMsg, productNotFoundMsg] ∧
    (7 : Nat) ≠ 8 :=
  ⟨rfl, rfl, by decide⟩

/-! ### C4: order number shape and uniqueness discipline -/

theorem digitStringOfLen_spec {str : String} {n : Nat}
    (h : digitStringOfLen str n = true) :
    str.toList.length = n ∧ ∀ c ∈ str.toList, c.isDigit = true := by
  simpa only [digitStringOfLen, Bool.and_eq_true, beq_iff_eq,
    List.all_eq_true] using h

theorem genOrderNumber_toList (d r : String) :
    (genOrderNumber d r).toList =
      ['N', 'S', '-'] ++ (d.toList ++ (['-'] ++ r.toList)) := by
  show ("NS-" ++ d ++ "-" ++ r).toList = _
  have happ : ∀ a b : String, (a ++ b).toList = a.toList ++ b.toList :=
    fun a b => String.data_append a b
  rw [happ, happ, happ, List.append_assoc, List.append_assoc]
  rfl

theorem genOrderNumber_code_format {d r : String}
    (hd : digitStringOfLen d 8 = true) (hr : digitStringOfLen r 4 = true) :
    matchesCodeNumberFormat (genOrderNumber d r) = true := by
  obtain ⟨hdl, hdd⟩ := digitStringOfLen_spec hd
  obtain ⟨hrl, hrd⟩ := digitStringOfLen_spec hr
  have hcs := genOrderNumber_toList d r
  have h3 : ((['N', 'S', '-'] : List Char) ++ (d.toList ++ (['-'] ++ r.toList))).drop 3 =
      d.toList ++ (['-'] ++ r.toList) :=
    List.drop_left ['N', 'S', '-'] (d.toList ++ (['-'] ++ r.toList))
  have h4 : (d.toList ++ (['-'] ++ r.toList)).take 8 = d.toList := by
    rw [← hdl]; exact List.take_left d.toList _
  have h5 : (d.toList ++ (['-'] ++ r.toList)).drop 8 = ['-'] ++ r.toList := by
    rw [← hdl]; exact List.drop_left d.toList _
  have h6 : ((['N', 'S', '-'] : List Char) ++ (d.toList ++ (['-'] ++ r.toList))).drop 11 =
      ['-'] ++ r.toList := by
    rw [show (11 : Nat) = 3 + 8 from rfl, ← List.drop_drop, h3, h5]
  have h7 : ((['N', 'S', '-'] : List Char) ++ (d.toList ++ (['-'] ++ r.toList))).drop 12 =
      r.toList := by
    rw [show (12 : Nat) = 11 + 1 from rfl, ← List.drop_drop, h6]
    rfl
  simp only [matchesCodeNumberFormat, hcs, Bool.and_eq_true, beq_iff_eq,
    List.all_eq_true]
  refine ⟨⟨⟨⟨?_, ?_⟩, ?_⟩, ?_⟩, ?_⟩
  · rw [List.length_append, List.length_append, List.length_append, hdl, hrl]
    rfl
  · exact List.take_left ['N', 'S', '-'] (d.toList ++ (['-'] ++ r.toList))
  · rw [h3, h4]
    exact hdd
  · rw [h6]
    exact List.take_left ['-'] r.toList
  · rw [h7]
    exact hrd

theorem genOrderNumber_not_spec_format {d r : String}
    (hd : digitStringOfLen d 8 = true) (hr : digitStringOfLen r 4 = true) :
    matchesSpecNumberFormat (genOrderNumber d r) = false := by
  obtain ⟨hdl, _⟩ := digitStringOfLen_spec hd
  obtain ⟨hrl, _⟩ := digitStringOfLen_spec hr
  have hcs := genOrderNumber_toList d r
  have hlen : ((['N', 'S', '-'] : List Char) ++ (d.toList ++ (['-'] ++ r.toList))).length = 16 := by
    rw [List.length_append, List.length_append, List.length_append, hdl, hrl]
    rfl
  simp only [matchesSpecNumberFormat, hcs, hlen]
  rfl

/-- C4 (amended): every successfully created order carries the number
NS-<date>-<4 digits> (with a hyphen between date and suffix, so it does not
match the hyphen-free shape NS followed by twelve digits), generated in a
single attempt from the date and the random draw with no regeneration; the
number differs from every number already stored only because a colliding
insert is refused by the unique column, not because a fresh number is
drawn. -/
theorem orderNumber_format_and_constraint {env : Env} {s : Store}
    {userId : Option Nat} {lines : List CartLine} {s₁ : Store} {oid : Nat}
    (hd : digitStringOfLen env.dateStr 8 = true)
    (hr : digitStringOfLen env.randStr 4 = true)
    (h : createOrder env s userId lines = (s₁, .created oid)) :
    ∃ o ∈ s₁.orders, o.oid = oid ∧
      o.orderNumber = genOrderNumber env.dateStr env.randStr ∧
      matchesCodeNumberFormat o.orderNumber = true ∧
      matchesSpecNumberFormat o.orderNumber = false ∧
      ∀ o₀ ∈ s.orders, o₀.orderNumber ≠ o.orderNumber := by
  obtain ⟨r, hrr, hv, hcol, hoid, hs⟩ := createOrder_created h
  have hnum : (newOrder env s userId r).orderNumber =
      genOrderNumber env.dateStr env.randStr := by
    show orderNumberOnSave "" env = _
    rw [orderNumberOnSave, if_pos rfl]
  refine ⟨newOrder env s userId r, ?_, hoid.symm, hnum, ?_, ?_, hcol⟩
  · rw [hs]
    exact List.mem_append_right _ (List.mem_cons_self _ _)
  · rw [hnum]
    exact genOrderNumber_code_format hd hr
  · rw [hnum]
    exact genOrderNumber_not_spec_format hd hr

/-- Witness for the C4 theorem: the concrete demo creation. -/
theorem orderNumber_format_and_constraint_witness :
    ∃ o ∈ (createOrder demoEnv demoStore (some 5) [CartLine.mk 1 1]).1.orders,
      o.oid = 0 ∧
      o.orderNumber = genOrderNumber demoEnv.dateStr demoEnv.randStr ∧
      matchesCodeNumberFormat o.orderNumber = true ∧
      matchesSpecNumberFormat o.orderNumber = false ∧
      ∀ o₀ ∈ demoStore.orders, o₀.orderNumber ≠ o.orderNumber :=
  @orderNumber_format_and_constraint demoEnv demoStore (some 5) [CartLine.mk 1 1]
    (createOrder demoEnv demoStore (some 5) [CartLine.mk 1 1]).1 0
    (by decide) (by decide) (by rfl)

/-- An order already persisted with the number the generator will produce
for the date 20261012 and draw 0042, for the C4 counterexample. -/
def collidingOrder : OrderRec :=
  { oid := 0, orderNumber := "NS-20261012-0042", userId := some 5,
    status := .pending, totalAmount := 0, items := [] }

/-- A store holding the colliding order and one orderable product. -/
def collidingStore : Store :=
  { products := [demoProduct], orders := [collidingOrder], favorites := [],
    users := [], profiles := [], nextOrderId := 1 }

/-- C4 as literally stated fails: the generated number carries a hyphen
between the date and the four-digit suffix, so it does not match the
claimed hyphen-free shape, and when the generated number already exists
the implementation does not regenerate: the creation fails outright on the
unique column with the store unchanged. -/
theorem orderNumber_claim_counterexample :
    matchesSpecNumberFormat (genOrderNumber "20261012" "0042") = false ∧
    genOrderNumber "20261012" "0042" = "NS-20261012-0042" ∧
    createOrder ⟨"20261012", "0042"⟩ collidingStore (some 5) [CartLine.mk 1 1] =
      (collidingStore, .internalError) :=
  ⟨by decide, rfl, rfl⟩

/-! ### C6: reachability of the cancelled status -/

/-- C6 (amended): through the user-facing cancellation endpoint, every
order either keeps its status or moves to cancelled from pending or
confirmed only; the admin bulk action, by contrast, assigns cancelled to
every selected order regardless of its prior status (see the
counterexample), so the original claim holds only for the non-admin
operations. -/
theorem cancelOrder_status_transitions {s : Store} {uid oid : Nat}
    (hnd : (s.orders.map (fun o => o.oid)).Nodup) :
    List.Forall₂ (fun o o₁ =>
        o₁.status = o.status ∨
          (o₁.status = OrderStatus.cancelled ∧
            (o.status = .pending ∨ o.status = .confirmed)))
      s.orders (cancelOrder s uid oid).1.orders := by
  match ho : findUserOrder s.orders oid uid with
  | none =>
    rw [cancelOrder_none ho]
    exact List.forall₂_same.mpr (fun o _ => Or.inl rfl)
  | some o =>
    by_cases hst : o.status = .pending ∨ o.status = .confirmed
    · rw [cancelOrder_found_ok ho hst]
      show List.Forall₂ _ s.orders
        (s.orders.map (fun o₀ => if o₀.oid == oid
          then { o₀ with status := .cancelled } else o₀))
      rw [List.forall₂_map_right_iff]
      refine List.forall₂_same.mpr ?_
      intro o₀ hm
      by_cases hc : (o₀.oid == oid) = true
      · rw [if_pos hc]
        have hmo : o ∈ s.orders := List.mem_of_find?_eq_some ho
        have hpred := List.find?_some ho
        simp only [Bool.and_eq_true, beq_iff_eq] at hpred hc
        have hoo : o₀ = o :=
          List.inj_on_of_nodup_map hnd hm hmo (by rw [hc, hpred.1])
        exact Or.inr ⟨rfl, by rw [hoo]; exact hst⟩
      · rw [if_neg hc]
        exact Or.inl rfl
    · rw [cancelOrder_found_bad ho hst]
      exact List.forall₂_same.mpr (fun o _ => Or.inl rfl)

/-- Witness for the C6 theorem at the concrete shipped-order store. -/
theorem cancelOrder_status_transitions_witness :
    List.Forall₂ (fun o o₁ =>
        o₁.status = o.status ∨
          (o₁.status = OrderStatus.cancelled ∧
            (o.status = .pending ∨ o.status = .confirmed)))
      demoShippedStore.orders (cancelOrder demoShippedStore 5 1).1.orders :=
  cancelOrder_status_transitions (by decide)

/-- A delivered order owned by user 5, for the C6 counterexample. -/
def deliveredOrder : OrderRec :=
  { oid := 1, orderNumber := "NS-20250101-0002", userId := some 5,
    status := .delivered, totalAmount := 0, items := [] }

/-- A store holding only the delivered order. -/
def deliveredStore : Store :=
  { products := [], orders := [deliveredOrder], favorites := [],
    users := [], profiles := [], nextOrderId := 2 }

/-- C6 as literally stated fails: the admin bulk action mark_cancelled
assigns cancelled to every selected order, so selecting an order in the
delivered status takes a transition out of delivered straight to
cancelled. -/
theorem cancelled_reachability_counterexample :
    deliveredOrder.status = OrderStatus.delivered ∧
    (markCancelled deliveredStore [1]).orders.map (fun o => o.status) =
      [OrderStatus.cancelled] :=
  ⟨rfl, rfl⟩

/-! ### C9: one profile per created user -/

/-- C9: creating a user identity creates exactly one linked profile in the
same step, both for a bare user creation and for the registration path
that afterwards stores the phone on that profile; the created user record
itself is present as well. -/
theorem createUser_profile_invariant {s : Store} {uid : Nat} {phone : String}
    (h : profileCount s uid = 0) :
    profileCount (createUser s uid) uid = 1 ∧
    profileCount (registerUser s uid phone) uid = 1 ∧
    uid ∈ (createUser s uid).users ∧
    uid ∈ (registerUser s uid phone).users := by
  have hc : profileCount (createUser s uid) uid = 1 := by
    show (s.profiles ++ [({ userId := uid, phone := "" } : ProfileRec)]).countP
      (fun pr => pr.userId == uid) = 1
    rw [List.countP_append]
    rw [profileCount] at h
    rw [h]
    simp [List.countP_cons]
  have hreg : profileCount (registerUser s uid phone) uid = 1 := by
    show (saveProfilePhone (createUser s uid).profiles uid phone).countP
      (fun pr => pr.userId == uid) = 1
    rw [saveProfilePhone, List.countP_map]
    have hcomp : ((fun pr => pr.userId == uid) ∘
        (fun pr => if pr.userId == uid then { pr with phone := phone } else pr)) =
        (fun pr : ProfileRec => pr.userId == uid) := by
      funext pr
      show ((if (pr.userId == uid) = true
          then { pr with phone := phone } else pr).userId == uid) = (pr.userId == uid)
      by_cases hp : (pr.userId == uid) = true
      · rw [if_pos hp]
      · rw [if_neg hp]
    rw [hcomp]
    exact hc
  refine ⟨hc, hreg, ?_, ?_⟩
  · show uid ∈ s.users ++ [uid]
    exact List.mem_append_right _ (List.mem_cons_self _ _)
  · show uid ∈ s.users ++ [uid]
    exact List.mem_append_right _ (List.mem_cons_self _ _)

/-- Witness for the C9 theorem at the demo store for user 7. -/
theorem createUser_profile_invariant_witness :
    profileCount (createUser demoStore 7) 7 = 1 ∧
    profileCount (registerUser demoStore 7 "+99312345678") 7 = 1 ∧
    7 ∈ (createUser demoStore 7).users ∧
    7 ∈ (registerUser demoStore 7 "+99312345678").users :=
  createUser_profile_invariant (by decide)

/-! ### C10: idempotent favorite addition -/

/-- C10: for an existing active product, after one or more favorite-add
invocations exactly one favorite row for the user and product pair exists,
and a repeat invocation reports the already-exists outcome without
changing the store. -/
theorem favoriteAdd_idempotent {s : Store} {uid pid : Nat} {p : Product} {n : Nat}
    (hp : findActiveProduct s.products pid = some p)
    (h0 : favoriteCount s uid pid = 0)
    (hn : 1 ≤ n) :
    favoriteCount (favoriteAddN s uid pid n) uid pid = 1 ∧
    favoriteAdd (favoriteAddN s uid pid 1) uid pid =
      (favoriteAddN s uid pid 1, .alreadyExists) := by
  have hcontains : s.favorites.contains (uid, pid) = false := by
    cases hb : s.favorites.contains (uid, pid) with
    | false => rfl
    | true =>
      exfalso
      have hmem : (uid, pid) ∈ s.favorites := List.elem_iff.mp hb
      have hpos : 0 < favoriteCount s uid pid :=
        List.countP_pos_iff.mpr ⟨(uid, pid), hmem, by simp⟩
      rw [h0] at hpos
      exact Nat.lt_irrefl 0 hpos
  have hstep : favoriteAdd s uid pid =
      ({ s with favorites := (uid, pid) :: s.favorites }, .added) := by
    unfold favoriteAdd
    rw [hp]
    show (if s.favorites.contains (uid, pid) = true
        then (s, FavOutcome.alreadyExists)
        else ({ s with favorites := (uid, pid) :: s.favorites }, FavOutcome.added)) = _
    rw [if_neg (by rw [hcontains]; exact Bool.false_ne_true)]
  have hm1 : favoriteCount { s with favorites := (uid, pid) :: s.favorites } uid pid = 1 := by
    show ((uid, pid) :: s.favorites).countP (fun f => f == (uid, pid)) = 1
    rw [List.countP_cons]
    have h0f : s.favorites.countP (fun f => f == (uid, pid)) = 0 := h0
    rw [h0f]
    simp
  have hstable : favoriteAdd { s with favorites := (uid, pid) :: s.favorites } uid pid =
      ({ s with favorites := (uid, pid) :: s.favorites }, .alreadyExists) := by
    unfold favoriteAdd
    show (match findActiveProduct s.products pid with
      | none => _
      | some _ => _) = _
    rw [hp]
    show (if ((uid, pid) :: s.favorites).contains (uid, pid) = true
        then ({ s with favorites := (uid, pid) :: s.favorites }, FavOutcome.alreadyExists)
        else _) = _
    rw [if_pos (by simp [List.contains_cons])]
  have haddN : ∀ m, favoriteAddN s uid pid (m + 1) =
      { s with favorites := (uid, pid) :: s.favorites } := by
    intro m
    induction m with
    | zero =>
      show (favoriteAdd s uid pid).1 = _
      rw [hstep]
    | succ k ih =>
      show (favoriteAdd (favoriteAddN s uid pid (k + 1)) uid pid).1 = _
      rw [ih, hstable]
  obtain ⟨m, rfl⟩ : ∃ m, n = m + 1 := ⟨n - 1, by omega⟩
  refine ⟨?_, ?_⟩
  · rw [haddN m]
    exact hm1
  · rw [haddN 0]
    exact hstable

/-- Witness for the C10 theorem: user 5 adds product 1 three times. -/
theorem favoriteAdd_idempotent_witness :
    favoriteCount (favoriteAddN demoStore 5 1 3) 5 1 = 1 ∧
    favoriteAdd (favoriteAddN demoStore 5 1 1) 5 1 =
      (favoriteAddN demoStore 5 1 1, .alreadyExists) :=
  @favoriteAdd_idempotent demoStore 5 1 demoProduct 3 (by decide) (by decide) (by decide)

end NextStore
